import Mathlib

/-!
Verification of the data-access core of a Postgres web SQL tool
(`app.py`): DSN/SSL resolution, table-name splitting, identifier
quoting, the SQL router, the browse/delete request handler, and the
row-matching delete semantics.
-/

/-- Python `str.replace('"', '""')` on the character list: every
double-quote character is doubled. -/
def doubleQuotes : List Char → List Char
  | [] => []
  | c :: rest =>
    if c = '"' then '"' :: '"' :: doubleQuotes rest
    else c :: doubleQuotes rest

/-- Embeds `schema.replace(q, q+q)` / `col.replace('"', '""')` from
`post_handler`. -/
def qreplace (s : String) : String := String.mk (doubleQuotes s.data)

/-- Embeds the identifier quoting of `post_handler`
(the q + part.replace(q, q+q) + q fragment): double embedded quotes and wrap in
double-quote delimiters. -/
def quoteIdent (s : String) : String := "\"" ++ qreplace s ++ "\""

/-- Embeds the quoted schema-dot-name fragment: the quoted qualified
name used for browse and delete. -/
def qualIdent (schema name : String) : String :=
  quoteIdent schema ++ "." ++ quoteIdent name

/-- Inverse of `doubleQuotes`: halve doubled double-quote characters. -/
def undouble : List Char → List Char
  | [] => []
  | [c] => [c]
  | c :: d :: rest =>
    if c = '"' ∧ d = '"' then '"' :: undouble rest
    else c :: undouble (d :: rest)

/-- Unquoting by the engine's convention: strip the delimiters and
halve doubled quote characters. -/
def unquoteIdent (s : String) : String :=
  String.mk (undouble ((s.data.drop 1).dropLast))

/-- Python `str.strip()` (whitespace trim on both ends), embedded at the
character-list level. -/
def stripChars (l : List Char) : List Char :=
  ((l.dropWhile Char.isWhitespace).reverse.dropWhile Char.isWhitespace).reverse

/-- Python `s.strip()`. -/
def strStrip (s : String) : String := String.mk (stripChars s.data)

/-- Python `s.lower()` (ASCII case folding, as used by the app on SQL
keywords and ssl modes). -/
def strLower (s : String) : String := String.mk (s.data.map Char.toLower)

/-- The test `leadsWith pat l` holds when `pat` is an initial segment of `l`;
character-list form of Python `str.startswith`. -/
def leadsWith : List Char → List Char → Bool
  | [], _ => true
  | _ :: _, [] => false
  | p :: ps, x :: xs => p == x && leadsWith ps xs

/-- Python `s.startswith(pat)`. -/
def strBeginsWith (s pat : String) : Bool := leadsWith pat.data s.data

/-- Python `table_name.split(".", 1)`: split at the first `'.'`,
returning the parts, or `none` when there is no dot. -/
def splitDotAux : List Char → Option (List Char × List Char)
  | [] => none
  | c :: rest =>
    if c = '.' then some ([], rest)
    else
      match splitDotAux rest with
      | none => none
      | some (a, b) => some (c :: a, b)

/-- Embeds the table-name resolution of `post_handler`: split at the
first dot into (schema, name); a dotless name gets schema `public`. -/
def splitTableName (t : String) : String × String :=
  match splitDotAux t.data with
  | some (a, b) => (String.mk a, String.mk b)
  | none => ("public", t)

/-- Embeds `_connect`'s SSL-mode resolution: the form value wins when
non-empty after trimming, else the URL's `sslmode` query parameter,
else the literal `disable`. `qsSsl` is the first value of the URL's
`sslmode` query parameter (empty when absent). -/
def effectiveSslMode (formSsl qsSsl : String) : String :=
  let f := strStrip formSsl
  let q := strStrip qsSsl
  if f ≠ "" then f else if q ≠ "" then q else "disable"

/-- Embeds `_connect`'s `ssl_required`: TLS is negotiated iff the
effective mode, lower-cased, is require / verify-full / verify-ca. -/
def sslRequired (formSsl qsSsl : String) : Bool :=
  let m := strLower (effectiveSslMode formSsl qsSsl)
  m == "require" || m == "verify-full" || m == "verify-ca"

/-- Embeds `sql.split(None, 1)[0] if sql.split() else ""` from
`post_handler`: the first whitespace-delimited token of the text. -/
def firstWord (sql : String) : String :=
  String.mk ((sql.data.dropWhile Char.isWhitespace).takeWhile
    (fun c => !c.isWhitespace))

/-- Embeds the router condition of `post_handler`
(`first_word == "select" or first_word.startswith("with")`, with
`first_word` already lower-cased). -/
def isRowReturning (sql : String) : Bool :=
  let fw := strLower (firstWord sql)
  fw == "select" || strBeginsWith fw "with"

/-- Router as the spec words it: first whitespace-delimited token of the
trimmed text lower-cased equals `select`, or the trimmed text begins
with `with` case-insensitively. -/
def specRowRoute (sqlText : String) : Bool :=
  let t := strStrip sqlText
  strLower (firstWord t) == "select" || strBeginsWith (strLower t) "with"

/-- SQL traffic issued on the connection during one request:
the catalog query of `_get_tables`, a `conn.fetch(sql)` from
`_run_select`, a `conn.execute(sql)` from `_run_statement`, a
parameterized `conn.fetch(delete_sql, *values)`, and `conn.close()`. -/
inductive SqlEvent where
  | catalog : SqlEvent
  | select (sql : String) : SqlEvent
  | execStmt (sql : String) : SqlEvent
  | fetchWith (sql : String) (params : List String) : SqlEvent
  | close : SqlEvent
  deriving DecidableEq, Repr

/-- Result of `json.loads(row_json)` as the handler consumes it: a JSON
object (column name to the Python `str()` form of its value, in
insertion order), or a non-object value with its Python truthiness. -/
inductive PyJson where
  | obj (fields : List (String × String)) : PyJson
  | other (truthy : Bool) : PyJson
  deriving DecidableEq, Repr

/-- The request's external effects: each field gives the outcome the
database driver (or `json.loads`) would produce for that call.
`Except.error` models a raised exception with its message. -/
structure DbEnv where
  tablesRes : Except String (List (String × String))
  selectRes : String → Except String (List String × List (List String))
  execRes : String → Except String String
  fetchRes : String → List String → Except String (List (List String))
  jsonLoads : String → Except String PyJson

/-- Form fields of the POST request consumed by `post_handler`. -/
structure FormData where
  action : String
  tableName : Option String
  sqlText : String
  deleteTableName : Option String
  rowJson : Option String

/-- Python truthiness of an optional string form field. -/
def optTruthy : Option String → Bool
  | none => false
  | some s => !(s == "")

/-- What one request reports back plus the SQL traffic it issued. -/
structure HandlerOutcome where
  message : String
  error : String
  events : List SqlEvent
  deriving DecidableEq, Repr

/-- Embeds the condition builder of the delete branch: one
`"col"::text = $i` condition per snapshot column (quote characters in
the column name doubled), indices counting up from `idx`, and the
bound values in snapshot order. -/
def buildConditions : List (String × String) → Nat → List String × List String
  | [], _ => ([], [])
  | (col, val) :: rest, idx =>
    let c := "\"" ++ qreplace col ++ "\"::text = $" ++ toString idx
    let (cs, vs) := buildConditions rest (idx + 1)
    (c :: cs, val :: vs)

/-- Embeds `" AND ".join(conditions) if conditions else "TRUE"`. -/
def whereClause (conds : List String) : String :=
  if conds.isEmpty then "TRUE" else String.intercalate " AND " conds

/-- The DELETE statement text generated for a snapshot. -/
def deleteSqlFor (schema name : String) (conds : List String) : String :=
  "DELETE FROM " ++ qualIdent schema name ++ " WHERE " ++ whereClause conds ++
    " RETURNING *"

/-- The `SELECT * FROM ident LIMIT 200;` used by the browse branch and
the post-delete reload. -/
def browseSqlFor (schema name : String) : String :=
  "SELECT * FROM " ++ qualIdent schema name ++ " LIMIT 200;"

/-- Embeds the `view_table` branch of `post_handler`: reject tables
outside the catalog list, otherwise run the quoted LIMIT-200 browse. -/
def viewTableBranch (e : DbEnv) (tables : List (String × String))
    (t : String) : HandlerOutcome :=
  let p := splitTableName t
  if p ∉ tables then
    { message := "",
      error := "Table " ++ p.1 ++ "." ++ p.2 ++ " not found or not allowed.",
      events := [] }
  else
    let sql := browseSqlFor p.1 p.2
    match e.selectRes sql with
    | .error msg => { message := "", error := msg, events := [.select sql] }
    | .ok (_, rows) =>
      { message := "Showing first " ++ toString rows.length ++ " rows from " ++
          p.1 ++ "." ++ p.2,
        error := "", events := [.select sql] }

/-- The post-delete reload (`# Reload table after delete`): re-browse
the table; an exception there replaces the error while any message set
by the delete survives. -/
def reloadAfter (e : DbEnv) (schema name msg err : String)
    (evts : List SqlEvent) : HandlerOutcome :=
  let sql := browseSqlFor schema name
  match e.selectRes sql with
  | .error msg2 => { message := msg, error := msg2, events := evts ++ [.select sql] }
  | .ok _ => { message := msg, error := err, events := evts ++ [.select sql] }

/-- Embeds the `delete_row` branch of `post_handler`: whitelist check,
`json.loads` of the snapshot, the parameterized DELETE for a non-empty
object (Python truthiness skips the DELETE for a falsy decode result),
and the reload. -/
def deleteRowBranch (e : DbEnv) (tables : List (String × String))
    (dt rj : String) : HandlerOutcome :=
  let p := splitTableName dt
  if p ∉ tables then
    { message := "",
      error := "Table " ++ p.1 ++ "." ++ p.2 ++ " not found or not allowed for delete.",
      events := [] }
  else
    match e.jsonLoads rj with
    | .error msg =>
      reloadAfter e p.1 p.2 "" ("Invalid row data: " ++ msg) []
    | .ok (.obj []) => reloadAfter e p.1 p.2 "" "" []
    | .ok (.other false) => reloadAfter e p.1 p.2 "" "" []
    | .ok (.other true) =>
      { message := "", error := "AttributeError: object has no attribute items",
        events := [] }
    | .ok (.obj fields) =>
      let cv := buildConditions fields 1
      let dsql := deleteSqlFor p.1 p.2 cv.1
      match e.fetchRes dsql cv.2 with
      | .error msg =>
        { message := "", error := msg, events := [.fetchWith dsql cv.2] }
      | .ok deletedRows =>
        reloadAfter e p.1 p.2
          ("Deleted " ++ toString deletedRows.length ++ " row(s) from " ++
            p.1 ++ "." ++ p.2)
          "" [.fetchWith dsql cv.2]

/-- Embeds the `run_sql` branch of `post_handler`: route to the
row-returning or status-returning path by `isRowReturning`. -/
def runSqlBranch (e : DbEnv) (sql : String) : HandlerOutcome :=
  if isRowReturning sql then
    match e.selectRes sql with
    | .error msg => { message := "", error := msg, events := [.select sql] }
    | .ok (_, rows) =>
      { message := "Query OK, " ++ toString rows.length ++ " rows returned.",
        error := "", events := [.select sql] }
  else
    match e.execRes sql with
    | .error msg => { message := "", error := msg, events := [.execStmt sql] }
    | .ok status =>
      { message := "Statement OK: " ++ status, error := "", events := [.execStmt sql] }

/-- The body of `post_handler`'s main `try` block: always fetch the
catalog first, then dispatch on the action; the events do not yet
include the `finally` close. -/
def handlerBody (e : DbEnv) (f : FormData) : HandlerOutcome :=
  match e.tablesRes with
  | .error msg => { message := "", error := msg, events := [.catalog] }
  | .ok tables =>
    let r :=
      if f.action == "view_table" && optTruthy f.tableName then
        viewTableBranch e tables (f.tableName.getD "")
      else if f.action == "delete_row" && optTruthy f.deleteTableName &&
          optTruthy f.rowJson then
        deleteRowBranch e tables (f.deleteTableName.getD "") (f.rowJson.getD "")
      else if f.action == "run_sql" && !(strStrip f.sqlText == "") then
        runSqlBranch e (strStrip f.sqlText)
      else
        { message := "Connected. Tables loaded.", error := "", events := [] }
    { r with events := .catalog :: r.events }

/-- Embeds `post_handler` after a successful `_connect`: the `try` body with
the `finally: await conn.close()` appended on every exit path. -/
def postHandler (e : DbEnv) (f : FormData) : HandlerOutcome :=
  let b := handlerBody e f
  { b with events := b.events ++ [.close] }

/-- Modelled from the spec: PostgreSQL's evaluation of the generated
`WHERE "c1"::text = $1 AND ... AND "cn"::text = $n` — a row (its
columns' text projections) matches iff every snapshot column is present
with exactly the bound text value. -/
def rowMatchesSnapshot (snap : List (String × String))
    (row : List (String × String)) : Bool :=
  snap.all fun p => row.lookup p.1 == some p.2

/-- Modelled from the spec: the engine's `DELETE ... RETURNING *`
(`deleteMatching`) removes exactly the matching rows and reports their
number as `deletedCount`; it raises no error when nothing matches. -/
def deleteMatching (snap : List (String × String))
    (tbl : List (List (String × String))) :
    List (List (String × String)) × Nat :=
  (tbl.filter fun r => !(rowMatchesSnapshot snap r),
   (tbl.filter fun r => rowMatchesSnapshot snap r).length)

/-- A concrete environment: catalog knows `public.users`; `json.loads`
fails on the payload `bad`, returns the empty object on `emptyobj`, and
an `id`/`name` object otherwise. -/
def sampleEnv : DbEnv where
  tablesRes := .ok [("public", "users")]
  selectRes := fun _ => .ok (["id", "name"], [["3", "Ann"]])
  execRes := fun _ => .ok "UPDATE 1"
  fetchRes := fun _ _ => .ok [["3", "Ann"]]
  jsonLoads := fun s =>
    if s == "bad" then .error "Expecting value"
    else if s == "emptyobj" then .ok (.obj [])
    else .ok (.obj [("id", "3"), ("name", "Ann")])

/-- A delete request whose snapshot payload decodes to the empty
object. -/
def emptySnapshotForm : FormData where
  action := "delete_row"
  tableName := none
  sqlText := ""
  deleteTableName := some "public.users"
  rowJson := some "emptyobj"

/-- A delete request whose snapshot payload fails to decode. -/
def badSnapshotForm : FormData where
  action := "delete_row"
  tableName := none
  sqlText := ""
  deleteTableName := some "public.users"
  rowJson := some "bad"

/-- A delete request whose snapshot decodes to the id/name object
(Scenario C). -/
def deleteSnapshotForm : FormData where
  action := "delete_row"
  tableName := none
  sqlText := ""
  deleteTableName := some "public.users"
  rowJson := some "snap"

theorem doubleQuotes_eq_nil {l : List Char} (h : doubleQuotes l = []) : l = [] := by
  cases l with
  | nil => rfl
  | cons c rest =>
    by_cases hc : c = '"' <;> simp [doubleQuotes, hc] at h

theorem undouble_doubleQuotes (l : List Char) :
    undouble (doubleQuotes l) = l := by
  induction l with
  | nil => rfl
  | cons c rest ih =>
    by_cases hc : c = '"'
    · subst hc
      simp only [doubleQuotes, if_pos rfl]
      simpa [undouble] using ih
    · rw [doubleQuotes, if_neg hc]
      cases hdq : doubleQuotes rest with
      | nil =>
        have hr : rest = [] := doubleQuotes_eq_nil hdq
        subst hr
        simp [undouble]
      | cons d t =>
        rw [undouble, if_neg (by simp [hc]), ← hdq, ih]

theorem count_doubleQuotes (l : List Char) :
    (doubleQuotes l).count '"' = 2 * l.count '"' := by
  induction l with
  | nil => rfl
  | cons c rest ih =>
    by_cases hc : c = '"'
    · subst hc
      simp only [doubleQuotes, if_pos rfl, List.count_cons, ih]
      simp
      omega
    · simp only [doubleQuotes, if_neg hc, List.count_cons, ih]
      simp [hc]

/-- Claim C8: identifier quoting doubles every embedded double-quote
character (the count of quote characters in the escaped body is twice
that of the original) and wraps the result in double-quote delimiters;
unquoting by the same convention (strip delimiters, halve doubled
quotes) recovers every identifier exactly — the round-trip holds for
all identifiers, in particular those containing the quote character. -/
theorem quoteIdent_roundtrip (s : String) :
    quoteIdent s = "\"" ++ String.mk (doubleQuotes s.data) ++ "\"" ∧
    (quoteIdent s).data.count '"' = 2 * s.data.count '"' + 2 ∧
    unquoteIdent (quoteIdent s) = s := by
  have hdata : (quoteIdent s).data = '"' :: (doubleQuotes s.data ++ ['"']) := by
    simp [quoteIdent, qreplace, String.data_append]
  refine ⟨rfl, ?_, ?_⟩
  · rw [hdata]
    simp [List.count_cons, count_doubleQuotes]
  · rw [unquoteIdent, hdata]
    have h1 : (('"' :: (doubleQuotes s.data ++ ['"'])).drop 1) =
        doubleQuotes s.data ++ ['"'] := rfl
    rw [h1]
    have h2 : (doubleQuotes s.data ++ ['"']).dropLast = doubleQuotes s.data := by
      simp
    rw [h2, undouble_doubleQuotes]

theorem splitDotAux_not_mem {l : List Char} (h : '.' ∉ l) :
    splitDotAux l = none := by
  induction l with
  | nil => rfl
  | cons c rest ih =>
    have hc : c ≠ '.' := fun hc => h (hc ▸ List.mem_cons_self c rest)
    have hr : '.' ∉ rest := fun hr => h (List.mem_cons_of_mem c hr)
    simp [splitDotAux, hc, ih hr]

theorem splitDotAux_append {a : List Char} (b : List Char) (h : '.' ∉ a) :
    splitDotAux (a ++ '.' :: b) = some (a, b) := by
  induction a with
  | nil => simp [splitDotAux]
  | cons c rest ih =>
    have hc : c ≠ '.' := fun hc => h (hc ▸ List.mem_cons_self c rest)
    have hr : '.' ∉ rest := fun hr => h (List.mem_cons_of_mem c hr)
    simp [splitDotAux, hc, ih hr]

/-- Claim C10: the submitted table name is split into (schema, name) at
its first `'.'` only — a dotless name resolves to schema `public` with
the whole string as table name, and everything after the first dot
(further dots included) becomes the table-name component. -/
theorem splitTableName_spec :
    (∀ t : String, '.' ∉ t.data → splitTableName t = ("public", t)) ∧
    (∀ a b : String, '.' ∉ a.data → splitTableName (a ++ "." ++ b) = (a, b)) := by
  constructor
  · intro t ht
    simp [splitTableName, splitDotAux_not_mem ht]
  · intro a b ha
    have hdata : (a ++ "." ++ b).data = a.data ++ '.' :: b.data := by
      simp [String.data_append]
    rw [splitTableName, hdata, splitDotAux_append b.data ha]

/-- Witness for C10 at concrete inputs: a dotless name, and a name with
two dots. -/
theorem splitTableName_spec_witness :
    splitTableName "users" = ("public", "users") ∧
    splitTableName "s.t.u" = ("s", "t.u") := by
  constructor
  · exact splitTableName_spec.1 "users" (by decide)
  · have h := splitTableName_spec.2 "s" "t.u" (by decide)
    have he : ("s" ++ "." ++ "t.u" : String) = "s.t.u" := rfl
    rwa [he] at h

/-- Claim C6: the effective SSL mode is the trimmed form value if
non-empty, else the trimmed URL `sslmode` query parameter if non-empty,
else `disable`; TLS is required iff the effective mode lower-cased is
one of require / verify-full / verify-ca; and a non-empty form value
overrides the URL's query parameter. -/
theorem effectiveSslMode_spec (formSsl qsSsl : String) :
    effectiveSslMode formSsl qsSsl =
      (if strStrip formSsl ≠ "" then strStrip formSsl
       else if strStrip qsSsl ≠ "" then strStrip qsSsl else "disable") ∧
    (sslRequired formSsl qsSsl = true ↔
      strLower (effectiveSslMode formSsl qsSsl) ∈
        (["require", "verify-full", "verify-ca"] : List String)) ∧
    (strStrip formSsl ≠ "" → effectiveSslMode formSsl qsSsl = strStrip formSsl) := by
  refine ⟨rfl, ?_, ?_⟩
  · simp only [sslRequired, Bool.or_eq_true, beq_iff_eq, List.mem_cons,
      List.mem_singleton]
    constructor
    · rintro ((h | h) | h) <;> simp [h]
    · rintro (h | h | h) <;> simp_all
  · intro h
    simp [effectiveSslMode, h]

/-- Witness for C6 at concrete inputs: the form value `require`
overrides a URL parameter `disable`, and requires TLS. -/
theorem effectiveSslMode_spec_witness :
    effectiveSslMode "require" "disable" = "require" ∧
    sslRequired "require" "disable" = true := by
  have h := effectiveSslMode_spec "require" "disable"
  refine ⟨h.2.2 (by decide), ?_⟩
  rw [h.2.1]
  decide

theorem dropWhile_head_not {p : Char → Bool} (l : List Char) (c : Char)
    (cs : List Char) (h : l.dropWhile p = c :: cs) : p c = false := by
  induction l with
  | nil => simp [List.dropWhile] at h
  | cons a as ih =>
    by_cases hp : p a
    · rw [List.dropWhile_cons_of_pos hp] at h
      exact ih h
    · rw [List.dropWhile_cons_of_neg hp] at h
      cases h
      simpa using hp

theorem dropWhile_stripChars (l : List Char) :
    (stripChars l).dropWhile Char.isWhitespace = stripChars l := by
  unfold stripChars
  cases hx : ((l.dropWhile Char.isWhitespace).reverse.dropWhile
      Char.isWhitespace).reverse with
  | nil => simp
  | cons c cs =>
    have hpre : (c :: cs) <+:
        l.dropWhile Char.isWhitespace := by
      rw [← hx]
      have h := List.reverse_prefix.mpr
        (List.dropWhile_suffix (l := (l.dropWhile Char.isWhitespace).reverse)
          Char.isWhitespace)
      simpa using h
    obtain ⟨t, ht⟩ := hpre
    have hc : Char.isWhitespace c = false :=
      dropWhile_head_not l c (cs ++ t) (by rw [← List.cons_append, ← ht])
    rw [List.dropWhile_cons_of_neg (by simp [hc])]

theorem leadsWith_takeWhile_lower (pat : List Char)
    (hpat : ∀ p ∈ pat, ∀ c : Char, c.isWhitespace = true →
      (p == Char.toLower c) = false) :
    ∀ l : List Char,
      leadsWith pat ((l.takeWhile (fun c => !c.isWhitespace)).map Char.toLower) =
      leadsWith pat (l.map Char.toLower) := by
  induction pat with
  | nil => intro l; simp [leadsWith]
  | cons p ps ih =>
    intro l
    cases l with
    | nil => simp
    | cons c cs =>
      by_cases hc : c.isWhitespace
      · rw [List.takeWhile_cons, if_neg (by simp [hc])]
        have h2 := hpat p (List.mem_cons_self p ps) c hc
        simp [leadsWith, h2]
      · rw [List.takeWhile_cons, if_pos (by simp [hc])]
        simp only [List.map_cons, leadsWith]
        rw [ih (fun q hq => hpat q (List.mem_cons_of_mem _ hq)) cs]

theorem whitespace_not_with (p : Char) (hp : p ∈ ("with" : String).data) :
    ∀ c : Char, c.isWhitespace = true → (p == Char.toLower c) = false := by
  intro c hc
  have hcs : c = ' ' ∨ c = '\t' ∨ c = '\r' ∨ c = '\n' := by
    revert hc
    simp [Char.isWhitespace]
    tauto
  have hd : ("with" : String).data = ['w', 'i', 't', 'h'] := rfl
  rw [hd] at hp
  have hps : p = 'w' ∨ p = 'i' ∨ p = 't' ∨ p = 'h' := by simpa using hp
  rcases hcs with h | h | h | h <;> subst h <;>
    rcases hps with h | h | h | h <;> subst h <;> decide

/-- Claim C5 (router equivalence part): on trimmed text the code's
router condition coincides with the spec's classification rule. -/
theorem isRowReturning_eq_specRowRoute (sqlText : String) :
    isRowReturning (strStrip sqlText) = specRowRoute sqlText := by
  have hdrop : (strStrip sqlText).data.dropWhile Char.isWhitespace =
      (strStrip sqlText).data := dropWhile_stripChars sqlText.data
  have key : strBeginsWith (strLower (firstWord (strStrip sqlText))) "with" =
      strBeginsWith (strLower (strStrip sqlText)) "with" := by
    unfold strBeginsWith strLower firstWord
    show leadsWith ("with" : String).data
        ((((strStrip sqlText).data.dropWhile Char.isWhitespace).takeWhile
          (fun c => !c.isWhitespace)).map Char.toLower) =
      leadsWith ("with" : String).data ((strStrip sqlText).data.map Char.toLower)
    rw [hdrop]
    exact leadsWith_takeWhile_lower ("with" : String).data
      whitespace_not_with (strStrip sqlText).data
  simp only [isRowReturning, specRowRoute]
  rw [key]

theorem reloadAfter_events (e : DbEnv) (s n m er : String)
    (evts : List SqlEvent) :
    (reloadAfter e s n m er evts).events =
      evts ++ [SqlEvent.select (browseSqlFor s n)] := by
  simp only [reloadAfter]
  rcases h : e.selectRes (browseSqlFor s n) with m2 | v <;> simp [h]

theorem reloadAfter_message (e : DbEnv) (s n m er : String)
    (evts : List SqlEvent) :
    (reloadAfter e s n m er evts).message = m := by
  simp only [reloadAfter]
  rcases h : e.selectRes (browseSqlFor s n) with m2 | v <;> simp [h]

theorem close_not_mem_viewTableBranch (e : DbEnv)
    (tables : List (String × String)) (t : String) :
    SqlEvent.close ∉ (viewTableBranch e tables t).events := by
  simp only [viewTableBranch]
  split
  · simp
  · rcases h : e.selectRes (browseSqlFor (splitTableName t).1
        (splitTableName t).2) with m | v
    · simp [h]
    · obtain ⟨c, r⟩ := v
      simp [h]

theorem close_not_mem_deleteRowBranch (e : DbEnv)
    (tables : List (String × String)) (dt rj : String) :
    SqlEvent.close ∉ (deleteRowBranch e tables dt rj).events := by
  simp only [deleteRowBranch]
  split
  · simp
  · rcases h : e.jsonLoads rj with m | pj
    · simp [h, reloadAfter_events]
    · match pj with
      | .obj [] => simp [h, reloadAfter_events]
      | .other false => simp [h, reloadAfter_events]
      | .other true => simp [h]
      | .obj (p :: frest) =>
        simp only [h]
        rcases hf : e.fetchRes (deleteSqlFor (splitTableName dt).1
            (splitTableName dt).2 (buildConditions (p :: frest) 1).1)
            (buildConditions (p :: frest) 1).2 with m | rows <;>
          simp [hf, reloadAfter_events]

theorem close_not_mem_runSqlBranch (e : DbEnv) (sql : String) :
    SqlEvent.close ∉ (runSqlBranch e sql).events := by
  simp only [runSqlBranch]
  split
  · rcases h : e.selectRes sql with m | v
    · simp [h]
    · obtain ⟨c, r⟩ := v
      simp [h]
  · rcases h : e.execRes sql with m | st <;> simp [h]

theorem close_not_mem_handlerBody (e : DbEnv) (f : FormData) :
    SqlEvent.close ∉ (handlerBody e f).events := by
  simp only [handlerBody]
  rcases htr : e.tablesRes with m | tables
  · simp
  · simp only
    split
    · simpa using close_not_mem_viewTableBranch e tables (f.tableName.getD "")
    · split
      · simpa using close_not_mem_deleteRowBranch e tables
          (f.deleteTableName.getD "") (f.rowJson.getD "")
      · split
        · simpa using close_not_mem_runSqlBranch e (strStrip f.sqlText)
        · simp

/-- Claim C7: for every request whose connection open succeeds, the
connection is closed on every exit path — the event trace of
`postHandler` ends with exactly one `close`, whatever the catalog,
select, execute, fetch, or decode outcomes are. -/
theorem connection_always_closed (e : DbEnv) (f : FormData) :
    (postHandler e f).events.getLast? = some SqlEvent.close ∧
    (postHandler e f).events.count SqlEvent.close = 1 := by
  constructor
  · unfold postHandler
    simp
  · unfold postHandler
    simp only [List.count_append]
    have h := close_not_mem_handlerBody e f
    rw [List.count_eq_zero.mpr h]
    rfl

/-- Claim C1: a browse or a delete whose resolved (schema, name) pair
is not in the catalog list fetched in the same request reports the
corresponding not-found-or-not-allowed validation error and issues no
SQL besides the catalog query itself — no SELECT, no DELETE. -/
theorem whitelist_rejection (e : DbEnv) (f : FormData)
    (tables : List (String × String)) (ht : e.tablesRes = .ok tables) :
    (∀ t : String, f.action = "view_table" → f.tableName = some t → t ≠ "" →
      splitTableName t ∉ tables →
      (postHandler e f).error = "Table " ++ (splitTableName t).1 ++ "." ++
        (splitTableName t).2 ++ " not found or not allowed." ∧
      (postHandler e f).events = [SqlEvent.catalog, SqlEvent.close]) ∧
    (∀ dt rj : String, f.action = "delete_row" → f.deleteTableName = some dt →
      dt ≠ "" → f.rowJson = some rj → rj ≠ "" → splitTableName dt ∉ tables →
      (postHandler e f).error = "Table " ++ (splitTableName dt).1 ++ "." ++
        (splitTableName dt).2 ++ " not found or not allowed for delete." ∧
      (postHandler e f).events = [SqlEvent.catalog, SqlEvent.close]) := by
  constructor
  · intro t ha htn hne hmem
    simp only [postHandler, handlerBody, viewTableBranch, ht, ha, htn]
    simp [optTruthy, hne, hmem]
  · intro dt rj ha hdt hne hrj hrjne hmem
    simp only [postHandler, handlerBody, deleteRowBranch, ht, ha, hdt, hrj]
    simp [optTruthy, hne, hrjne, hmem]

/-- Witness for C1: concrete browse and delete requests for
`public.orders` against a catalog holding only `public.users` are
rejected with no SQL issued. -/
theorem whitelist_rejection_witness :
    ((postHandler sampleEnv
        { action := "view_table", tableName := some "public.orders",
          sqlText := "", deleteTableName := none, rowJson := none }).error =
      "Table public.orders not found or not allowed." ∧
     (postHandler sampleEnv
        { action := "view_table", tableName := some "public.orders",
          sqlText := "", deleteTableName := none, rowJson := none }).events =
      [SqlEvent.catalog, SqlEvent.close]) ∧
    ((postHandler sampleEnv
        { action := "delete_row", tableName := none, sqlText := "",
          deleteTableName := some "public.orders", rowJson := some "x" }).error =
      "Table public.orders not found or not allowed for delete." ∧
     (postHandler sampleEnv
        { action := "delete_row", tableName := none, sqlText := "",
          deleteTableName := some "public.orders", rowJson := some "x" }).events =
      [SqlEvent.catalog, SqlEvent.close]) := by
  constructor
  · have h := (whitelist_rejection sampleEnv
      { action := "view_table", tableName := some "public.orders",
        sqlText := "", deleteTableName := none, rowJson := none }
      [("public", "users")] rfl).1 "public.orders" rfl rfl (by decide)
      (by decide)
    simpa using h
  · have h := (whitelist_rejection sampleEnv
      { action := "delete_row", tableName := none, sqlText := "",
        deleteTableName := some "public.orders", rowJson := some "x" }
      [("public", "users")] rfl).2 "public.orders" "x" rfl rfl (by decide)
      rfl (by decide) (by decide)
    simpa using h

/-- Claim C5: with `action = run_sql`, empty or whitespace-only text
issues no statement; non-empty trimmed text routed by the spec's rule
(first token lower-cased is `select`, or trimmed text begins with
`with` case-insensitively) goes to the row-returning path, and all
other text goes to the status path with the engine's status string
embedded unmodified in the reported message. -/
theorem runSql_routing (e : DbEnv) (f : FormData)
    (tables : List (String × String)) (ht : e.tablesRes = .ok tables)
    (ha : f.action = "run_sql") :
    (strStrip f.sqlText = "" →
      (postHandler e f).events = [SqlEvent.catalog, SqlEvent.close]) ∧
    (strStrip f.sqlText ≠ "" → specRowRoute f.sqlText = true →
      (postHandler e f).events =
        [SqlEvent.catalog, SqlEvent.select (strStrip f.sqlText),
          SqlEvent.close]) ∧
    (strStrip f.sqlText ≠ "" → specRowRoute f.sqlText = false →
      (postHandler e f).events =
        [SqlEvent.catalog, SqlEvent.execStmt (strStrip f.sqlText),
          SqlEvent.close] ∧
      (∀ status : String, e.execRes (strStrip f.sqlText) = .ok status →
        (postHandler e f).message = "Statement OK: " ++ status)) := by
  have hr := isRowReturning_eq_specRowRoute f.sqlText
  refine ⟨?_, ?_, ?_⟩
  · intro h0
    simp only [postHandler, handlerBody, ht, ha]
    simp [h0]
  · intro hne hspec
    simp only [postHandler, handlerBody, runSqlBranch, ht, ha]
    rw [hr, hspec]
    rcases hs : e.selectRes (strStrip f.sqlText) with m | v
    · simp [hne, hs]
    · obtain ⟨c, r⟩ := v
      simp [hne, hs]
  · intro hne hspec
    constructor
    · simp only [postHandler, handlerBody, runSqlBranch, ht, ha]
      rw [hr, hspec]
      rcases hx : e.execRes (strStrip f.sqlText) with m | st <;> simp [hne, hx]
    · intro status hst
      simp only [postHandler, handlerBody, runSqlBranch, ht, ha]
      rw [hr, hspec]
      simp [hne, hst]

/-- Witness for C5: Scenario D routes a leading-whitespace WITH query
to the row path; Scenario E routes an UPDATE to the status path with
the status passed through; empty text issues nothing. -/
theorem runSql_routing_witness :
    (postHandler sampleEnv
        { action := "run_sql", tableName := none,
          sqlText := "  WITH t AS (SELECT 1) SELECT * FROM t",
          deleteTableName := none, rowJson := none }).events =
      [SqlEvent.catalog,
        SqlEvent.select "WITH t AS (SELECT 1) SELECT * FROM t",
        SqlEvent.close] ∧
    (postHandler sampleEnv
        { action := "run_sql", tableName := none,
          sqlText := "UPDATE users SET active=false",
          deleteTableName := none, rowJson := none }).message =
      "Statement OK: UPDATE 1" ∧
    (postHandler sampleEnv
        { action := "run_sql", tableName := none, sqlText := "   ",
          deleteTableName := none, rowJson := none }).events =
      [SqlEvent.catalog, SqlEvent.close] := by
  refine ⟨?_, ?_, ?_⟩
  · have h := ((runSql_routing sampleEnv
      { action := "run_sql", tableName := none,
        sqlText := "  WITH t AS (SELECT 1) SELECT * FROM t",
        deleteTableName := none, rowJson := none }
      [("public", "users")] rfl rfl).2.1 (by decide) (by decide))
    simpa using h
  · have h := ((runSql_routing sampleEnv
      { action := "run_sql", tableName := none,
        sqlText := "UPDATE users SET active=false",
        deleteTableName := none, rowJson := none }
      [("public", "users")] rfl rfl).2.2 (by decide) (by decide)).2
      "UPDATE 1" rfl
    simpa using h
  · have h := ((runSql_routing sampleEnv
      { action := "run_sql", tableName := none, sqlText := "   ",
        deleteTableName := none, rowJson := none }
      [("public", "users")] rfl rfl).1 (by decide))
    simpa using h

theorem buildConditions_snd (l : List (String × String)) (idx : Nat) :
    (buildConditions l idx).2 = l.map Prod.snd := by
  induction l generalizing idx with
  | nil => rfl
  | cons p rest ih =>
    obtain ⟨c, v⟩ := p
    simp [buildConditions, ih (idx + 1)]

theorem buildConditions_fst (l : List (String × String)) (idx : Nat) :
    (buildConditions l idx).1 = (l.enumFrom idx).map
      (fun p => "\"" ++ qreplace p.2.1 ++ "\"::text = $" ++ toString p.1) := by
  induction l generalizing idx with
  | nil => rfl
  | cons q rest ih =>
    obtain ⟨c, v⟩ := q
    simp [buildConditions, ih (idx + 1), List.enumFrom]

theorem buildConditions_fst_cols (l g : List (String × String)) (idx : Nat)
    (h : l.map Prod.fst = g.map Prod.fst) :
    (buildConditions l idx).1 = (buildConditions g idx).1 := by
  induction l generalizing g idx with
  | nil =>
    cases g with
    | nil => rfl
    | cons q grest => simp at h
  | cons p rest ih =>
    cases g with
    | nil => simp at h
    | cons q grest =>
      obtain ⟨c, v⟩ := p
      obtain ⟨c2, v2⟩ := q
      simp only [List.map_cons, List.cons.injEq] at h
      simp [buildConditions, h.1, ih grest (idx + 1) h.2]

theorem buildConditions_fst_length (l : List (String × String)) (idx : Nat) :
    (buildConditions l idx).1.length = l.length := by
  induction l generalizing idx with
  | nil => rfl
  | cons p rest ih =>
    obtain ⟨c, v⟩ := p
    simp [buildConditions, ih (idx + 1)]

/-- Claim C2: for a whitelisted delete with a decodable non-empty
snapshot, the generated statement is exactly
`DELETE FROM <quoted schema>.<quoted name> WHERE "c1"::text = $1 AND
... AND "cn"::text = $n RETURNING *` (column names quoted by doubling
embedded quotes, one condition per snapshot column in snapshot order);
the bound parameters are the snapshot values in order (the SQL text
depends only on the column names, never on the values); and the
reported deleted count is the number of rows the fetch returned. -/
theorem delete_sql_shape (e : DbEnv) (f : FormData)
    (tables : List (String × String)) (dt rj : String)
    (fields : List (String × String)) (rows : List (List String))
    (ht : e.tablesRes = .ok tables) (ha : f.action = "delete_row")
    (hdt : f.deleteTableName = some dt) (hdtne : dt ≠ "")
    (hrj : f.rowJson = some rj) (hrjne : rj ≠ "")
    (hmem : splitTableName dt ∈ tables)
    (hjson : e.jsonLoads rj = .ok (.obj fields)) (hfne : fields ≠ [])
    (hfetch : e.fetchRes
        (deleteSqlFor (splitTableName dt).1 (splitTableName dt).2
          (buildConditions fields 1).1)
        (buildConditions fields 1).2 = .ok rows) :
    deleteSqlFor (splitTableName dt).1 (splitTableName dt).2
        (buildConditions fields 1).1 =
      "DELETE FROM " ++ quoteIdent (splitTableName dt).1 ++ "." ++
        quoteIdent (splitTableName dt).2 ++ " WHERE " ++
        String.intercalate " AND "
          ((fields.enumFrom 1).map fun p =>
            "\"" ++ qreplace p.2.1 ++ "\"::text = $" ++ toString p.1) ++
        " RETURNING *" ∧
    (buildConditions fields 1).2 = fields.map Prod.snd ∧
    (∀ g : List (String × String), g.map Prod.fst = fields.map Prod.fst →
      (buildConditions g 1).1 = (buildConditions fields 1).1) ∧
    SqlEvent.fetchWith
        (deleteSqlFor (splitTableName dt).1 (splitTableName dt).2
          (buildConditions fields 1).1)
        (buildConditions fields 1).2 ∈ (postHandler e f).events ∧
    (postHandler e f).message =
      "Deleted " ++ toString rows.length ++ " row(s) from " ++
        (splitTableName dt).1 ++ "." ++ (splitTableName dt).2 := by
  have hce : (buildConditions fields 1).1.isEmpty = false := by
    cases fields with
    | nil => exact absurd rfl hfne
    | cons p rest =>
      obtain ⟨c, v⟩ := p
      simp [buildConditions]
  refine ⟨?_, buildConditions_snd fields 1, ?_, ?_⟩
  · rw [deleteSqlFor, whereClause, if_neg (by simp [hce]), qualIdent,
      buildConditions_fst]
    simp [String.append_assoc]
  · intro g hg
    exact buildConditions_fst_cols g fields 1 hg
  · cases fields with
    | nil => exact absurd rfl hfne
    | cons p frest =>
      simp only [postHandler, handlerBody, deleteRowBranch, ht, ha, hdt, hrj]
      simp [optTruthy, hdtne, hrjne, hmem, hjson, hfetch, reloadAfter_events,
        reloadAfter_message]

/-- Witness for C2 (Scenario C): snapshot id=3, name=Ann against
`public.users` yields exactly the documented DELETE with bound values
3, Ann, and the deleted count reported from the returned rows. -/
theorem delete_sql_shape_witness :
    deleteSqlFor "public" "users"
        (buildConditions [("id", "3"), ("name", "Ann")] 1).1 =
      "DELETE FROM \"public\".\"users\" WHERE \"id\"::text = $1 AND \"name\"::text = $2 RETURNING *" ∧
    (buildConditions [("id", "3"), ("name", "Ann")] 1).2 = ["3", "Ann"] ∧
    (postHandler sampleEnv deleteSnapshotForm).message =
      "Deleted 1 row(s) from public.users" := by
  have h := delete_sql_shape sampleEnv deleteSnapshotForm
    [("public", "users")] "public.users" "snap"
    [("id", "3"), ("name", "Ann")] [["3", "Ann"]]
    rfl rfl rfl (by decide) rfl (by decide) (by decide) rfl (by decide) rfl
  exact ⟨h.1.trans (by decide), h.2.1.trans (by decide),
    h.2.2.2.2.trans (by decide)⟩

theorem reloadAfter_error_ok (e : DbEnv) (s n m er : String)
    (evts : List SqlEvent) (res : List String × List (List String))
    (h : e.selectRes (browseSqlFor s n) = .ok res) :
    (reloadAfter e s n m er evts).error = er := by
  simp only [reloadAfter]
  simp [h]

/-- Counterexample to C3 as stated: with a whitelisted table and an
empty decoded snapshot, the request's full SQL trace is catalog, the
reload SELECT, close — no DELETE statement is executed at all, so no
rows are deleted. -/
theorem emptySnapshot_no_delete_cex :
    (postHandler sampleEnv emptySnapshotForm).events =
      [SqlEvent.catalog,
        SqlEvent.select "SELECT * FROM \"public\".\"users\" LIMIT 200;",
        SqlEvent.close] ∧
    (postHandler sampleEnv emptySnapshotForm).message = "" := ⟨rfl, rfl⟩

/-- Claim C3 (amended): for a whitelisted delete whose decoded snapshot
is the empty object, the WHERE-clause builder would degenerate to the
literal TRUE, but the handler's Python truthiness test on the decoded
snapshot skips the DELETE entirely: no DELETE is executed (only the
reload SELECT runs) and no deletion is reported. -/
theorem emptySnapshot_skips_delete (e : DbEnv) (f : FormData)
    (tables : List (String × String)) (dt rj : String)
    (ht : e.tablesRes = .ok tables) (ha : f.action = "delete_row")
    (hdt : f.deleteTableName = some dt) (hdtne : dt ≠ "")
    (hrj : f.rowJson = some rj) (hrjne : rj ≠ "")
    (hmem : splitTableName dt ∈ tables)
    (hjson : e.jsonLoads rj = .ok (.obj [])) :
    whereClause [] = "TRUE" ∧
    (postHandler e f).events =
      [SqlEvent.catalog,
        SqlEvent.select
          (browseSqlFor (splitTableName dt).1 (splitTableName dt).2),
        SqlEvent.close] ∧
    (postHandler e f).message = "" := by
  refine ⟨rfl, ?_, ?_⟩
  · simp only [postHandler, handlerBody, deleteRowBranch, ht, ha, hdt, hrj]
    simp [optTruthy, hdtne, hrjne, hmem, hjson, reloadAfter_events]
  · simp only [postHandler, handlerBody, deleteRowBranch, ht, ha, hdt, hrj]
    simp [optTruthy, hdtne, hrjne, hmem, hjson, reloadAfter_message]

/-- Witness for the amended C3 at the concrete empty-snapshot
request. -/
theorem emptySnapshot_skips_delete_witness :
    whereClause [] = "TRUE" ∧
    (postHandler sampleEnv emptySnapshotForm).events =
      [SqlEvent.catalog,
        SqlEvent.select "SELECT * FROM \"public\".\"users\" LIMIT 200;",
        SqlEvent.close] := by
  have h := emptySnapshot_skips_delete sampleEnv emptySnapshotForm
    [("public", "users")] "public.users" "emptyobj"
    rfl rfl rfl (by decide) rfl (by decide) (by decide) rfl
  exact ⟨h.1, h.2.1.trans (by decide)⟩

/-- Counterexample to C4 as stated: on a decode failure the handler
reports the DecodeError but still issues the reload SELECT for the
table, so the request does issue a further SQL statement after the
catalog query. -/
theorem decodeError_issues_select_cex :
    (postHandler sampleEnv badSnapshotForm).error =
      "Invalid row data: Expecting value" ∧
    (postHandler sampleEnv badSnapshotForm).events =
      [SqlEvent.catalog,
        SqlEvent.select "SELECT * FROM \"public\".\"users\" LIMIT 200;",
        SqlEvent.close] := ⟨rfl, rfl⟩

/-- Claim C4 (amended): on a whitelisted delete whose snapshot payload
fails to decode, the request reports `Invalid row data` and no DELETE
statement is issued; the handler does, however, still run the reload
SELECT of the table before closing. -/
theorem decodeError_aborts_delete (e : DbEnv) (f : FormData)
    (tables : List (String × String)) (dt rj msg : String)
    (res : List String × List (List String))
    (ht : e.tablesRes = .ok tables) (ha : f.action = "delete_row")
    (hdt : f.deleteTableName = some dt) (hdtne : dt ≠ "")
    (hrj : f.rowJson = some rj) (hrjne : rj ≠ "")
    (hmem : splitTableName dt ∈ tables)
    (hjson : e.jsonLoads rj = .error msg)
    (hre : e.selectRes
        (browseSqlFor (splitTableName dt).1 (splitTableName dt).2) =
      .ok res) :
    (postHandler e f).error = "Invalid row data: " ++ msg ∧
    (postHandler e f).events =
      [SqlEvent.catalog,
        SqlEvent.select
          (browseSqlFor (splitTableName dt).1 (splitTableName dt).2),
        SqlEvent.close] ∧
    (postHandler e f).message = "" := by
  refine ⟨?_, ?_, ?_⟩
  · simp only [postHandler, handlerBody, deleteRowBranch, ht, ha, hdt, hrj]
    simp [optTruthy, hdtne, hrjne, hmem, hjson,
      reloadAfter_error_ok e (splitTableName dt).1 (splitTableName dt).2 _ _ _
        res hre]
  · simp only [postHandler, handlerBody, deleteRowBranch, ht, ha, hdt, hrj]
    simp [optTruthy, hdtne, hrjne, hmem, hjson, reloadAfter_events]
  · simp only [postHandler, handlerBody, deleteRowBranch, ht, ha, hdt, hrj]
    simp [optTruthy, hdtne, hrjne, hmem, hjson, reloadAfter_message]

/-- Witness for the amended C4 at the concrete bad-payload request. -/
theorem decodeError_aborts_delete_witness :
    (postHandler sampleEnv badSnapshotForm).error =
      "Invalid row data: Expecting value" ∧
    (postHandler sampleEnv badSnapshotForm).message = "" := by
  have h := decodeError_aborts_delete sampleEnv badSnapshotForm
    [("public", "users")] "public.users" "bad" "Expecting value"
    (["id", "name"], [["3", "Ann"]])
    rfl rfl rfl (by decide) rfl (by decide) (by decide) rfl rfl
  exact ⟨h.1, h.2.2⟩

/-- Claim C9: deleting by a snapshot that matches no row of the table
returns a deleted count of 0 and leaves the table unchanged, raising no
error; in particular re-running `deleteMatching` on the table it
already filtered deletes nothing — the delete is idempotent. -/
theorem deleteMatching_idempotent (snap : List (String × String))
    (tbl : List (List (String × String))) :
    ((∀ r ∈ tbl, rowMatchesSnapshot snap r = false) →
      deleteMatching snap tbl = (tbl, 0)) ∧
    deleteMatching snap (deleteMatching snap tbl).1 =
      ((deleteMatching snap tbl).1, 0) := by
  constructor
  · intro h
    simp only [deleteMatching, Prod.mk.injEq]
    constructor
    · apply List.filter_eq_self.mpr
      intro a ha
      simp [h a ha]
    · have hnil : (tbl.filter fun r => rowMatchesSnapshot snap r) = [] := by
        apply List.filter_eq_nil_iff.mpr
        intro a ha
        simp [h a ha]
      rw [hnil]
      rfl
  · simp only [deleteMatching, Prod.mk.injEq]
    constructor
    · rw [List.filter_filter]
      simp
    · rw [List.filter_filter]
      simp

/-- Witness for C9: a snapshot matching nothing in a one-row table
deletes zero rows. -/
theorem deleteMatching_idempotent_witness :
    deleteMatching [("id", "3")] [[("id", "4")]] = ([[("id", "4")]], 0) :=
  (deleteMatching_idempotent [("id", "3")] [[("id", "4")]]).1 (by decide)
